import Mathlib

/-!
Shallow embedding of the reconciliation core of the `simpson` prediction-market
backend (TypeScript), for checking its natural-language specification.

Embedded source units:
* `TradesService.recordTrade` / `TradesService.updatePositionAfterTrade`
  (trades service): idempotent trade recording, weighted-average cost basis,
  realized P&L, streak tracking.
* `FeeReconciliationJob.reconcileFees` (fee reconciliation job).
* `SolanaService.withRetry` (bounded-retry wrapper for RPC calls).
* `SolanaListener.handleTokenAccountChange` / `indexTransactionsForMint` /
  `updatePositionFromTransfer` (live listener and backfill engine).

Conventions: JavaScript numbers are modelled as `ℚ`; dates are modelled as
UTC milliseconds (`ℤ`); `Date.UTC`-midnight normalization therefore makes a
date a multiple of `86400000`. Database tables are modelled as lists of rows,
`findUnique` as `List.find?` on the row key, `update`/`upsert` as key-guarded
`List.map`/append. Effects (the wall clock, RPC responses) are passed as
explicit parameters or oracles. The repository does not contain its Prisma
schema file, so column defaults are modelled from the spec's data model:
`Position.realizedPnl` defaults to `0`, `User.currentStreak` and
`User.highestStreak` default to `0`, `User.lastTradeDate` defaults to null.
-/

namespace Simpson

/-- A row of the `Trade` table: wallet, market, token mint, side
(`"BUY"`/`"SELL"`), price, amount, the on-chain signature (unique key) and
the trade timestamp (UTC milliseconds). -/
structure Trade where
  walletAddress : String
  marketId : String
  tokenMint : String
  side : String
  price : ℚ
  amount : ℚ
  signature : String
  timestamp : ℤ
  deriving DecidableEq

/-- A row of the `User` table: wallet address (key) and the streak fields.
`lastTradeDate` is a UTC-midnight-normalized date in milliseconds. -/
structure User where
  walletAddress : String
  lastTradeDate : Option ℤ
  currentStreak : ℤ
  highestStreak : ℤ
  deriving DecidableEq

/-- A row of the `Position` table, keyed by (wallet, market, tokenMint). -/
structure Position where
  walletAddress : String
  marketId : String
  tokenMint : String
  amount : ℚ
  averageEntryPrice : ℚ
  realizedPnl : ℚ
  deriving DecidableEq

/-- The ledger store touched by `TradesService.recordTrade`: the `Trade`,
`User` and `Position` tables. -/
structure Ledger where
  trades : List Trade
  users : List User
  positions : List Position
  deriving DecidableEq

/-- The argument record of `TradesService.recordTrade`. -/
structure TradeData where
  walletAddress : String
  marketId : String
  tokenMint : String
  side : String
  price : ℚ
  amount : ℚ
  signature : String
  timestamp : ℤ
  deriving DecidableEq

/-- `prisma.trade.findUnique(where: signature)`. -/
def Ledger.findTrade (l : Ledger) (sig : String) : Option Trade :=
  l.trades.find? (fun t => t.signature == sig)

/-- Row-key test for the `User` table. -/
def userMatches (w : String) (u : User) : Bool :=
  u.walletAddress == w

/-- `prisma.user.findUnique(where: walletAddress)`. -/
def Ledger.findUser (l : Ledger) (w : String) : Option User :=
  l.users.find? (userMatches w)

/-- Row-key test for the `Position` table's compound unique key
`walletAddress_marketId_tokenMint`. -/
def posMatches (w m t : String) (p : Position) : Bool :=
  p.walletAddress == w && p.marketId == m && p.tokenMint == t

/-- `prisma.position.findUnique(where: walletAddress_marketId_tokenMint)`,
as a lookup in the `Position` table. -/
def findPositionIn (ps : List Position) (w m t : String) : Option Position :=
  ps.find? (posMatches w m t)

/-- `prisma.position.findUnique` against the full ledger. -/
def Ledger.findPosition (l : Ledger) (w m t : String) : Option Position :=
  findPositionIn l.positions w m t

/-- Modelled from the spec: the Prisma schema file is absent from the
repository, so a freshly created `User` row carries the data model's
defaults — no `lastTradeDate`, both streak counters `0`. -/
def defaultUser (w : String) : User :=
  { walletAddress := w, lastTradeDate := none, currentStreak := 0, highestStreak := 0 }

/-- `prisma.user.upsert(where: walletAddress, create: { walletAddress },
update: {})`: returns the existing row unchanged, or inserts a fresh row
with schema defaults. -/
def Ledger.upsertUserEmpty (l : Ledger) (w : String) : User × Ledger :=
  match l.findUser w with
  | some u => (u, l)
  | none =>
      let u := defaultUser w
      (u, { l with users := l.users ++ [u] })

/-- `prisma.user.update(where: walletAddress, data: { lastTradeDate,
currentStreak, highestStreak })`. -/
def Ledger.updateUserStreak (l : Ledger) (w : String) (today cur high : ℤ) : Ledger :=
  { l with
    users := l.users.map (fun u =>
      if userMatches w u then
        { u with lastTradeDate := some today, currentStreak := cur, highestStreak := high }
      else u) }

/-- `prisma.position.upsert` on the compound key: update the matching row
in place if one exists, else append the `create` row. -/
def upsertPositionIn (ps : List Position) (w m t : String) (create : Position)
    (update : Position → Position) : List Position :=
  match findPositionIn ps w m t with
  | some _ => ps.map (fun p => if posMatches w m t p then update p else p)
  | none => ps ++ [create]

/-- `prisma.position.update` on the compound key. -/
def updatePositionIn (ps : List Position) (w m t : String)
    (update : Position → Position) : List Position :=
  ps.map (fun p => if posMatches w m t p then update p else p)

/-- One day in milliseconds (`1000 * 60 * 60 * 24`). -/
def dayMs : ℤ := 86400000

/-- The streak computation inside `recordTrade`:
`diffTime = Math.abs(today.getTime() - lastTradeDate.getTime())`,
`diffDays = Math.ceil(diffTime / (1000*60*60*24))`. -/
def diffDaysJs (today last : ℤ) : ℤ :=
  ⌈((|today - last| : ℤ) : ℚ) / ((dayMs : ℤ) : ℚ)⌉

/-- The streak-update block of `recordTrade`: yields the new
`(currentStreak, highestStreak)` from the user's prior state and `today`. -/
def streakAfterTrade (u : User) (today : ℤ) : ℤ × ℤ :=
  let cur :=
    match u.lastTradeDate with
    | some last =>
        let diffDays := diffDaysJs today last
        if diffDays = 1 then u.currentStreak + 1
        else if diffDays > 1 then 1
        else u.currentStreak
    | none => 1
  let high := if cur > u.highestStreak then cur else u.highestStreak
  (cur, high)

/-- Modelled from the spec: the Prisma schema file is absent, so
`position.create` without an explicit `realizedPnl` takes the schema default
`0` (the spec's `realizedPnl` is a cumulative quantity starting at zero). -/
def defaultRealizedPnl : ℚ := 0

/-- `TradesService.updatePositionAfterTrade` (trades service):
BUY re-averages the cost basis over the combined holding (JavaScript
`existing?.amount || 0` and `existing?.averageEntryPrice || 0` are `getD 0`
since `0 || 0 = 0`); SELL requires an existing row, clamps the holding at
zero and realizes P&L against the stored average entry price; any other
side is ignored. -/
def updatePositionAfterTrade (ps : List Position) (d : TradeData) : List Position :=
  let existing := findPositionIn ps d.walletAddress d.marketId d.tokenMint
  if d.side == "BUY" then
    let newAmount := (existing.map Position.amount).getD 0 + d.amount
    let totalCost :=
      (existing.map Position.amount).getD 0 * (existing.map Position.averageEntryPrice).getD 0 +
        d.amount * d.price
    let newAvgPrice := if newAmount > 0 then totalCost / newAmount else d.price
    upsertPositionIn ps d.walletAddress d.marketId d.tokenMint
      { walletAddress := d.walletAddress, marketId := d.marketId, tokenMint := d.tokenMint,
        amount := newAmount, averageEntryPrice := newAvgPrice,
        realizedPnl := defaultRealizedPnl }
      (fun p => { p with amount := newAmount, averageEntryPrice := newAvgPrice })
  else if d.side == "SELL" then
    match existing with
    | none => ps
    | some p =>
        let newAmount := max 0 (p.amount - d.amount)
        let realizedPnl := p.realizedPnl + d.amount * (d.price - p.averageEntryPrice)
        updatePositionIn ps d.walletAddress d.marketId d.tokenMint
          (fun q => { q with amount := newAmount, realizedPnl := realizedPnl })
  else ps

/-- The `Trade` row inserted by `prisma.trade.create` inside `recordTrade`. -/
def mkTrade (d : TradeData) : Trade :=
  { walletAddress := d.walletAddress, marketId := d.marketId, tokenMint := d.tokenMint,
    side := d.side, price := d.price, amount := d.amount, signature := d.signature,
    timestamp := d.timestamp }

/-- `TradesService.recordTrade` (trades service). `today` is the
UTC-midnight-normalized current date in milliseconds (the source computes it
from the wall clock; it is passed explicitly here). Steps, in source order:
signature dedup check (returns the existing row unchanged), user upsert,
streak update, trade insert, metrics emission (stateless, omitted), position
update. -/
def recordTrade (l : Ledger) (d : TradeData) (today : ℤ) : Trade × Ledger :=
  match l.findTrade d.signature with
  | some t => (t, l)
  | none =>
      let r := l.upsertUserEmpty d.walletAddress
      let sh := streakAfterTrade r.1 today
      let l2 := r.2.updateUserStreak d.walletAddress today sh.1 sh.2
      let trade := mkTrade d
      let l3 := { l2 with trades := l2.trades ++ [trade] }
      let l4 := { l3 with positions := updatePositionAfterTrade l3.positions d }
      (trade, l4)

/-! ### Helper lemmas about the table operations -/

theorem find?_map_if {α : Type} (q : α → Bool) (f : α → α)
    (hf : ∀ a, q a = true → q (f a) = true) :
    ∀ (xs : List α), (xs.map (fun a => if q a then f a else a)).find? q = (xs.find? q).map f
  | [] => rfl
  | a :: xs => by
      by_cases hq : q a = true
      · simp only [List.map_cons, if_pos hq]
        rw [List.find?_cons_of_pos _ (hf a hq), List.find?_cons_of_pos _ hq]
        rfl
      · simp only [List.map_cons, if_neg hq]
        rw [List.find?_cons_of_neg _ hq, List.find?_cons_of_neg _ hq]
        exact find?_map_if q f hf xs

theorem map_if_of_none {α : Type} (q : α → Bool) (f : α → α) (xs : List α)
    (h : xs.find? q = none) :
    xs.map (fun a => if q a then f a else a) = xs := by
  induction xs with
  | nil => rfl
  | cons a xs ih =>
      rw [List.find?_eq_none] at h
      have ha : q a = false := by
        have := h a (List.mem_cons_self a xs)
        simpa using this
      simp only [List.map_cons, ha, Bool.false_eq_true, if_false, List.cons.injEq, true_and]
      exact ih (by rw [List.find?_eq_none]; intro x hx; exact h x (List.mem_cons_of_mem a hx))

@[simp] theorem upsertUserEmpty_trades (l : Ledger) (w : String) :
    (l.upsertUserEmpty w).2.trades = l.trades := by
  cases h : l.findUser w <;> simp [Ledger.upsertUserEmpty, h]

@[simp] theorem upsertUserEmpty_positions (l : Ledger) (w : String) :
    (l.upsertUserEmpty w).2.positions = l.positions := by
  cases h : l.findUser w <;> simp [Ledger.upsertUserEmpty, h]

@[simp] theorem updateUserStreak_trades (l : Ledger) (w : String) (today cur high : ℤ) :
    (l.updateUserStreak w today cur high).trades = l.trades := rfl

@[simp] theorem updateUserStreak_positions (l : Ledger) (w : String) (today cur high : ℤ) :
    (l.updateUserStreak w today cur high).positions = l.positions := rfl

theorem recordTrade_trades_of_none (l : Ledger) (d : TradeData) (today : ℤ)
    (h : l.findTrade d.signature = none) :
    (recordTrade l d today).2.trades = l.trades ++ [mkTrade d] := by
  simp [recordTrade, h]

theorem recordTrade_fst_of_none (l : Ledger) (d : TradeData) (today : ℤ)
    (h : l.findTrade d.signature = none) :
    (recordTrade l d today).1 = mkTrade d := by
  simp [recordTrade, h]

theorem recordTrade_findTrade_self (l : Ledger) (d : TradeData) (today : ℤ)
    (h : l.findTrade d.signature = none) :
    (recordTrade l d today).2.findTrade d.signature = some (mkTrade d) := by
  unfold Ledger.findTrade
  rw [recordTrade_trades_of_none l d today h, List.find?_append]
  unfold Ledger.findTrade at h
  rw [h]
  simp [mkTrade]

theorem posMatches_keys {w m t : String} {p : Position}
    (h : posMatches w m t p = true) :
    p.walletAddress = w ∧ p.marketId = m ∧ p.tokenMint = t := by
  simpa [posMatches, and_assoc] using h

theorem upsertPositionIn_find_existing (ps : List Position) (w m t : String)
    (c : Position) (f : Position → Position)
    (hf : ∀ p, posMatches w m t p = true → posMatches w m t (f p) = true)
    (p : Position) (hp : findPositionIn ps w m t = some p) :
    findPositionIn (upsertPositionIn ps w m t c f) w m t = some (f p) := by
  unfold upsertPositionIn
  rw [hp]
  unfold findPositionIn at hp ⊢
  rw [find?_map_if _ _ hf, hp]
  rfl

theorem upsertPositionIn_find_new (ps : List Position) (w m t : String)
    (c : Position) (f : Position → Position)
    (hp : findPositionIn ps w m t = none) (hc : posMatches w m t c = true) :
    findPositionIn (upsertPositionIn ps w m t c f) w m t = some c := by
  unfold upsertPositionIn
  rw [hp]
  unfold findPositionIn at hp ⊢
  rw [List.find?_append, hp]
  simp [hc]

theorem updatePositionIn_find (ps : List Position) (w m t : String)
    (f : Position → Position)
    (hf : ∀ p, posMatches w m t p = true → posMatches w m t (f p) = true)
    (p : Position) (hp : findPositionIn ps w m t = some p) :
    findPositionIn (updatePositionIn ps w m t f) w m t = some (f p) := by
  unfold updatePositionIn
  unfold findPositionIn at hp ⊢
  rw [find?_map_if _ _ hf, hp]
  rfl

theorem recordTrade_positions_of_none (l : Ledger) (d : TradeData) (today : ℤ)
    (h : l.findTrade d.signature = none) :
    (recordTrade l d today).2.positions = updatePositionAfterTrade l.positions d := by
  simp [recordTrade, h]

/-- If `0 ≤ x` then the source's `newAmount > 0 ? q : p` agrees with the
spec's `newAmount == 0 ? p : q` orientation. -/
theorem ite_pos_flip (x p q : ℚ) (hx : 0 ≤ x) :
    (if x > 0 then q else p) = (if x = 0 then p else q) := by
  rcases eq_or_lt_of_le hx with h | h
  · simp [← h]
  · rw [if_pos h, if_neg h.ne']

/-! ### C1 -/

/-- C1: `recordTrade` is idempotent on the trade signature. If a `Trade` row
with the trade's signature already exists, the call returns that row and the
ledger is unchanged (the duplicate check short-circuits before any other
mutation). Consequently, calling `recordTrade` twice with the same signature
leaves exactly one `Trade` row with that signature, and the second call
returns exactly the first call's result (same returned record, same ledger —
`Position`, streak and trade state all identical to a single call). -/
theorem C1_recordTrade_idempotent :
    (∀ (l : Ledger) (d : TradeData) (today : ℤ) (t : Trade),
        l.findTrade d.signature = some t → recordTrade l d today = (t, l)) ∧
    (∀ (l : Ledger) (d : TradeData) (today today' : ℤ),
        l.findTrade d.signature = none →
        ((recordTrade l d today).2.trades.filter
            (fun t => t.signature == d.signature)).length = 1 ∧
        recordTrade (recordTrade l d today).2 d today' = recordTrade l d today) := by
  constructor
  · intro l d today t h
    simp [recordTrade, h]
  · intro l d today today' h
    have hnone : ∀ x ∈ l.trades, ¬((x.signature == d.signature) = true) := by
      have := h
      unfold Ledger.findTrade at this
      exact List.find?_eq_none.mp this
    constructor
    · rw [recordTrade_trades_of_none l d today h, List.filter_append]
      have hnil : l.trades.filter (fun t => t.signature == d.signature) = [] :=
        List.filter_eq_nil_iff.mpr hnone
      simp [hnil, mkTrade]
    · have hfind := recordTrade_findTrade_self l d today h
      have h1 : recordTrade (recordTrade l d today).2 d today' =
          (mkTrade d, (recordTrade l d today).2) := by
        generalize hr : (recordTrade l d today).2 = L at hfind ⊢
        simp [recordTrade, hfind]
      have h2 : recordTrade l d today = (mkTrade d, (recordTrade l d today).2) :=
        Prod.ext (recordTrade_fst_of_none l d today h) rfl
      exact h1.trans h2.symm

/-- The empty ledger, used by concrete witnesses below. -/
def emptyLedger : Ledger := { trades := [], users := [], positions := [] }

/-- A sample `recordTrade` argument used by concrete witnesses below. -/
def sampleBuy : TradeData :=
  { walletAddress := "w1", marketId := "m1", tokenMint := "tm1",
    side := "BUY", price := 1, amount := 2, signature := "sigA", timestamp := 0 }

/-- A ledger that already holds `sampleBuy`'s trade row. -/
def ledgerWithSampleBuy : Ledger :=
  { trades := [mkTrade sampleBuy], users := [], positions := [] }

/-- Witness for C1: both branches applied at concrete inputs. -/
theorem C1_witness :
    recordTrade ledgerWithSampleBuy sampleBuy 0 = (mkTrade sampleBuy, ledgerWithSampleBuy) ∧
    ((recordTrade emptyLedger sampleBuy 0).2.trades.filter
        (fun t => t.signature == sampleBuy.signature)).length = 1 := by
  refine ⟨C1_recordTrade_idempotent.1 ledgerWithSampleBuy sampleBuy 0 (mkTrade sampleBuy)
      (by decide), ?_⟩
  exact (C1_recordTrade_idempotent.2 emptyLedger sampleBuy 0 0 (by decide)).1

/-! ### C2 and C3: position accounting -/

/-- The position row (if any) that `updatePositionAfterTrade` reads for a
trade: the row at the trade's `(wallet, market, tokenMint)` key. -/
def priorPos (l : Ledger) (d : TradeData) : Option Position :=
  l.findPosition d.walletAddress d.marketId d.tokenMint

theorem updatePositionAfterTrade_buy (ps : List Position) (d : TradeData)
    (hside : d.side = "BUY") :
    updatePositionAfterTrade ps d =
      upsertPositionIn ps d.walletAddress d.marketId d.tokenMint
        { walletAddress := d.walletAddress, marketId := d.marketId, tokenMint := d.tokenMint,
          amount := ((findPositionIn ps d.walletAddress d.marketId d.tokenMint).map
              Position.amount).getD 0 + d.amount,
          averageEntryPrice :=
            if ((findPositionIn ps d.walletAddress d.marketId d.tokenMint).map
                Position.amount).getD 0 + d.amount > 0 then
              (((findPositionIn ps d.walletAddress d.marketId d.tokenMint).map
                  Position.amount).getD 0 *
                ((findPositionIn ps d.walletAddress d.marketId d.tokenMint).map
                  Position.averageEntryPrice).getD 0 + d.amount * d.price) /
                (((findPositionIn ps d.walletAddress d.marketId d.tokenMint).map
                  Position.amount).getD 0 + d.amount)
            else d.price,
          realizedPnl := defaultRealizedPnl }
        (fun p =>
          { p with
            amount := ((findPositionIn ps d.walletAddress d.marketId d.tokenMint).map
                Position.amount).getD 0 + d.amount,
            averageEntryPrice :=
              if ((findPositionIn ps d.walletAddress d.marketId d.tokenMint).map
                  Position.amount).getD 0 + d.amount > 0 then
                (((findPositionIn ps d.walletAddress d.marketId d.tokenMint).map
                    Position.amount).getD 0 *
                  ((findPositionIn ps d.walletAddress d.marketId d.tokenMint).map
                    Position.averageEntryPrice).getD 0 + d.amount * d.price) /
                  (((findPositionIn ps d.walletAddress d.marketId d.tokenMint).map
                    Position.amount).getD 0 + d.amount)
              else d.price }) := by
  unfold updatePositionAfterTrade
  rw [hside]
  simp

theorem updatePositionAfterTrade_sell_none (ps : List Position) (d : TradeData)
    (hside : d.side = "SELL")
    (h : findPositionIn ps d.walletAddress d.marketId d.tokenMint = none) :
    updatePositionAfterTrade ps d = ps := by
  unfold updatePositionAfterTrade
  rw [hside, h]
  simp

theorem updatePositionAfterTrade_sell_some (ps : List Position) (d : TradeData)
    (hside : d.side = "SELL") (p : Position)
    (h : findPositionIn ps d.walletAddress d.marketId d.tokenMint = some p) :
    updatePositionAfterTrade ps d =
      updatePositionIn ps d.walletAddress d.marketId d.tokenMint
        (fun q =>
          { q with amount := max 0 (p.amount - d.amount),
                   realizedPnl := p.realizedPnl + d.amount * (d.price - p.averageEntryPrice) }) := by
  unfold updatePositionAfterTrade
  rw [hside, h]
  simp

/-- C2: a BUY recorded by `recordTrade` (fresh signature, non-negative prior
amount and trade amount) leaves the position at the trade's key with
`newAmount = oldAmount + tradeAmount`, weighted-average entry price
`(oldAmount*oldAvgPrice + tradeAmount*tradePrice) / newAmount` (falling back
to `tradePrice` when `newAmount = 0`), and `realizedPnl` unchanged (the
schema default `0` when no prior row existed). In particular, BUY 10 at
price 1 then BUY 10 at price 2 starting from no position yields `amount = 20`
and `averageEntryPrice = 3/2`. -/
theorem C2_buy_position_update :
    (∀ (l : Ledger) (d : TradeData) (today : ℤ),
        l.findTrade d.signature = none → d.side = "BUY" →
        0 ≤ ((priorPos l d).map Position.amount).getD 0 → 0 ≤ d.amount →
        (recordTrade l d today).2.findPosition d.walletAddress d.marketId d.tokenMint =
          some { walletAddress := d.walletAddress, marketId := d.marketId,
                 tokenMint := d.tokenMint,
                 amount := ((priorPos l d).map Position.amount).getD 0 + d.amount,
                 averageEntryPrice :=
                   if ((priorPos l d).map Position.amount).getD 0 + d.amount = 0 then d.price
                   else
                     (((priorPos l d).map Position.amount).getD 0 *
                       ((priorPos l d).map Position.averageEntryPrice).getD 0 +
                       d.amount * d.price) /
                       (((priorPos l d).map Position.amount).getD 0 + d.amount),
                 realizedPnl := ((priorPos l d).map Position.realizedPnl).getD 0 }) ∧
    (recordTrade (recordTrade emptyLedger
        { walletAddress := "w1", marketId := "m1", tokenMint := "tm1", side := "BUY",
          price := 1, amount := 10, signature := "sA", timestamp := 0 } 0).2
        { walletAddress := "w1", marketId := "m1", tokenMint := "tm1", side := "BUY",
          price := 2, amount := 10, signature := "sB", timestamp := 0 } 0).2.findPosition
        "w1" "m1" "tm1" =
      some { walletAddress := "w1", marketId := "m1", tokenMint := "tm1",
             amount := 20, averageEntryPrice := 3/2, realizedPnl := 0 } := by
  have main : ∀ (l : Ledger) (d : TradeData) (today : ℤ),
      l.findTrade d.signature = none → d.side = "BUY" →
      0 ≤ ((priorPos l d).map Position.amount).getD 0 → 0 ≤ d.amount →
      (recordTrade l d today).2.findPosition d.walletAddress d.marketId d.tokenMint =
        some { walletAddress := d.walletAddress, marketId := d.marketId,
               tokenMint := d.tokenMint,
               amount := ((priorPos l d).map Position.amount).getD 0 + d.amount,
               averageEntryPrice :=
                 if ((priorPos l d).map Position.amount).getD 0 + d.amount = 0 then d.price
                 else
                   (((priorPos l d).map Position.amount).getD 0 *
                     ((priorPos l d).map Position.averageEntryPrice).getD 0 +
                     d.amount * d.price) /
                     (((priorPos l d).map Position.amount).getD 0 + d.amount),
               realizedPnl := ((priorPos l d).map Position.realizedPnl).getD 0 } := by
    intro l d today hnew hside h0 ha
    show findPositionIn (recordTrade l d today).2.positions
        d.walletAddress d.marketId d.tokenMint = _
    rw [recordTrade_positions_of_none l d today hnew,
      updatePositionAfterTrade_buy l.positions d hside]
    have hflip := ite_pos_flip (((findPositionIn l.positions d.walletAddress d.marketId
        d.tokenMint).map Position.amount).getD 0 + d.amount)
      d.price
      ((((findPositionIn l.positions d.walletAddress d.marketId d.tokenMint).map
          Position.amount).getD 0 *
        ((findPositionIn l.positions d.walletAddress d.marketId d.tokenMint).map
          Position.averageEntryPrice).getD 0 + d.amount * d.price) /
        (((findPositionIn l.positions d.walletAddress d.marketId d.tokenMint).map
          Position.amount).getD 0 + d.amount))
      (add_nonneg h0 ha)
    cases hex : findPositionIn l.positions d.walletAddress d.marketId d.tokenMint with
    | none =>
        rw [upsertPositionIn_find_new _ _ _ _ _ _ hex (by simp [posMatches])]
        rw [hex] at hflip
        simp only [priorPos, Ledger.findPosition, hex, Option.map_none', Option.getD_none]
        simp only [Option.map_none', Option.getD_none] at hflip
        rw [hflip]
        simp [defaultRealizedPnl]
    | some p =>
        have hkeys := posMatches_keys (List.find?_some hex)
        rw [upsertPositionIn_find_existing _ _ _ _ _ _
          (fun q hq => by
            have hk := posMatches_keys hq
            simp [posMatches, hk.1, hk.2.1, hk.2.2])
          p hex]
        rw [hex] at hflip
        simp only [priorPos, Ledger.findPosition, hex, Option.map_some', Option.getD_some]
        simp only [Option.map_some', Option.getD_some] at hflip
        rw [hflip]
        congr 1
        cases p
        simp_all
  refine ⟨main, ?_⟩
  have hpriorA : priorPos emptyLedger
      { walletAddress := "w1", marketId := "m1", tokenMint := "tm1", side := "BUY",
        price := 1, amount := 10, signature := "sA", timestamp := 0 } = none := by decide
  have h1 := main emptyLedger
    { walletAddress := "w1", marketId := "m1", tokenMint := "tm1", side := "BUY",
      price := 1, amount := 10, signature := "sA", timestamp := 0 } 0
    (by decide) rfl (by decide) (by decide)
  rw [hpriorA] at h1
  simp only [Option.map_none', Option.getD_none] at h1
  norm_num at h1
  have hnewB : ((recordTrade emptyLedger
      { walletAddress := "w1", marketId := "m1", tokenMint := "tm1", side := "BUY",
        price := 1, amount := 10, signature := "sA", timestamp := 0 } 0).2).findTrade
      "sB" = none := by
    unfold Ledger.findTrade
    rw [recordTrade_trades_of_none _ _ _ (by decide)]
    decide
  have hpriorB : priorPos (recordTrade emptyLedger
      { walletAddress := "w1", marketId := "m1", tokenMint := "tm1", side := "BUY",
        price := 1, amount := 10, signature := "sA", timestamp := 0 } 0).2
      { walletAddress := "w1", marketId := "m1", tokenMint := "tm1", side := "BUY",
        price := 2, amount := 10, signature := "sB", timestamp := 0 } =
      some { walletAddress := "w1", marketId := "m1", tokenMint := "tm1",
             amount := 10, averageEntryPrice := 1, realizedPnl := 0 } := h1
  have h2 := main (recordTrade emptyLedger
      { walletAddress := "w1", marketId := "m1", tokenMint := "tm1", side := "BUY",
        price := 1, amount := 10, signature := "sA", timestamp := 0 } 0).2
    { walletAddress := "w1", marketId := "m1", tokenMint := "tm1", side := "BUY",
      price := 2, amount := 10, signature := "sB", timestamp := 0 } 0
    hnewB rfl (by rw [hpriorB]; decide) (by decide)
  rw [hpriorB] at h2
  simp only [Option.map_some', Option.getD_some] at h2
  exact h2.trans (by norm_num)

/-- Witness for C2: the universal part applied to `sampleBuy` on the empty
ledger (no prior position, amount `2` at price `1`). -/
theorem C2_witness :
    (recordTrade emptyLedger sampleBuy 0).2.findPosition "w1" "m1" "tm1" =
      some { walletAddress := "w1", marketId := "m1", tokenMint := "tm1",
             amount := 0 + 2,
             averageEntryPrice := if (0:ℚ) + 2 = 0 then 1 else (0 * 0 + 2 * 1) / (0 + 2),
             realizedPnl := 0 } := by
  have h := C2_buy_position_update.1 emptyLedger sampleBuy 0 (by decide) rfl (by decide)
    (by decide)
  rw [show priorPos emptyLedger sampleBuy = none from by decide] at h
  simp only [Option.map_none', Option.getD_none, sampleBuy] at h
  exact h

/-- A ledger holding one position `amount = 10`, `averageEntryPrice = 1`,
`realizedPnl = 0`, for the C3 example. -/
def sellLedger : Ledger :=
  { trades := [], users := [],
    positions := [{ walletAddress := "w1", marketId := "m1", tokenMint := "tm1",
                    amount := 10, averageEntryPrice := 1, realizedPnl := 0 }] }

/-- SELL 4 at price 2, for the C3 example. -/
def sellFour : TradeData :=
  { walletAddress := "w1", marketId := "m1", tokenMint := "tm1", side := "SELL",
    price := 2, amount := 4, signature := "sS", timestamp := 0 }

/-- C3: a SELL recorded by `recordTrade` (fresh signature) is a no-op on the
`Position` table when no position exists at the trade's key; otherwise the
position becomes `newAmount = max 0 (oldAmount - tradeAmount)`, `realizedPnl`
increases by `tradeAmount * (tradePrice - oldAvgPrice)` and
`averageEntryPrice` is unchanged. In particular from `amount = 10`,
`avgPrice = 1`, SELL 4 at price 2 yields `amount = 6`, `avgPrice = 1` and
`realizedPnl` increased by `4`. -/
theorem C3_sell_position_update :
    (∀ (l : Ledger) (d : TradeData) (today : ℤ),
        l.findTrade d.signature = none → d.side = "SELL" →
        (priorPos l d = none → (recordTrade l d today).2.positions = l.positions) ∧
        (∀ p, priorPos l d = some p →
          (recordTrade l d today).2.findPosition d.walletAddress d.marketId d.tokenMint =
            some { walletAddress := d.walletAddress, marketId := d.marketId,
                   tokenMint := d.tokenMint,
                   amount := max 0 (p.amount - d.amount),
                   averageEntryPrice := p.averageEntryPrice,
                   realizedPnl := p.realizedPnl + d.amount * (d.price - p.averageEntryPrice) })) ∧
    (recordTrade sellLedger sellFour 0).2.findPosition "w1" "m1" "tm1" =
      some { walletAddress := "w1", marketId := "m1", tokenMint := "tm1",
             amount := 6, averageEntryPrice := 1, realizedPnl := 4 } := by
  have main : ∀ (l : Ledger) (d : TradeData) (today : ℤ),
      l.findTrade d.signature = none → d.side = "SELL" →
      (priorPos l d = none → (recordTrade l d today).2.positions = l.positions) ∧
      (∀ p, priorPos l d = some p →
        (recordTrade l d today).2.findPosition d.walletAddress d.marketId d.tokenMint =
          some { walletAddress := d.walletAddress, marketId := d.marketId,
                 tokenMint := d.tokenMint,
                 amount := max 0 (p.amount - d.amount),
                 averageEntryPrice := p.averageEntryPrice,
                 realizedPnl := p.realizedPnl + d.amount * (d.price - p.averageEntryPrice) }) := by
    intro l d today hnew hside
    constructor
    · intro hnone
      rw [recordTrade_positions_of_none l d today hnew]
      exact updatePositionAfterTrade_sell_none l.positions d hside hnone
    · intro p hp
      show findPositionIn (recordTrade l d today).2.positions
          d.walletAddress d.marketId d.tokenMint = _
      rw [recordTrade_positions_of_none l d today hnew,
        updatePositionAfterTrade_sell_some l.positions d hside p hp]
      rw [updatePositionIn_find _ _ _ _ _
        (fun q hq => by
          have hk := posMatches_keys hq
          simp [posMatches, hk.1, hk.2.1, hk.2.2])
        p hp]
      have hkeys := posMatches_keys (List.find?_some (hp :
        findPositionIn l.positions d.walletAddress d.marketId d.tokenMint = some p))
      cases p
      simp_all
  refine ⟨main, ?_⟩
  have hp : priorPos sellLedger sellFour =
      some { walletAddress := "w1", marketId := "m1", tokenMint := "tm1",
             amount := 10, averageEntryPrice := 1, realizedPnl := 0 } := by decide
  have h2 := (main sellLedger sellFour 0 (by decide) rfl).2
    { walletAddress := "w1", marketId := "m1", tokenMint := "tm1",
      amount := 10, averageEntryPrice := 1, realizedPnl := 0 } hp
  simp only [sellFour] at h2
  refine h2.trans ?_
  norm_num

/-- Witness for C3: both the no-position branch (SELL into the empty ledger
leaves the `Position` table unchanged) and the existing-position branch
applied at the concrete example. -/
theorem C3_witness :
    (recordTrade emptyLedger sellFour 0).2.positions = emptyLedger.positions ∧
    (recordTrade sellLedger sellFour 0).2.findPosition "w1" "m1" "tm1" =
      some { walletAddress := "w1", marketId := "m1", tokenMint := "tm1",
             amount := max 0 (10 - 4),
             averageEntryPrice := 1,
             realizedPnl := 0 + 4 * (2 - 1) } := by
  constructor
  · exact (C3_sell_position_update.1 emptyLedger sellFour 0 (by decide) rfl).1 (by decide)
  · have h := (C3_sell_position_update.1 sellLedger sellFour 0 (by decide) rfl).2
      { walletAddress := "w1", marketId := "m1", tokenMint := "tm1",
        amount := 10, averageEntryPrice := 1, realizedPnl := 0 } (by decide)
    exact h

/-! ### C5: streak tracking -/

theorem upsertUserEmpty_findUser (l : Ledger) (w : String) :
    (l.upsertUserEmpty w).2.findUser w = some (l.upsertUserEmpty w).1 := by
  unfold Ledger.upsertUserEmpty
  cases h : l.findUser w with
  | some u => simpa [Ledger.findUser] using (by simpa [Ledger.findUser] using h :
      List.find? (userMatches w) l.users = some u)
  | none =>
      unfold Ledger.findUser at h ⊢
      simp only [List.find?_append, h, Option.none_or]
      simp [userMatches, defaultUser]

theorem recordTrade_findUser_of_none (l : Ledger) (d : TradeData) (today : ℤ)
    (h : l.findTrade d.signature = none) :
    (recordTrade l d today).2.findUser d.walletAddress =
      some { walletAddress := (l.upsertUserEmpty d.walletAddress).1.walletAddress,
             lastTradeDate := some today,
             currentStreak := (streakAfterTrade (l.upsertUserEmpty d.walletAddress).1 today).1,
             highestStreak := (streakAfterTrade (l.upsertUserEmpty d.walletAddress).1 today).2 } := by
  simp only [recordTrade, h]
  show (Ledger.updateUserStreak _ _ _ _ _).findUser _ = _
  unfold Ledger.findUser Ledger.updateUserStreak
  rw [find?_map_if (userMatches d.walletAddress) _
    (fun u hu => by simpa [userMatches] using hu)]
  have hfu := upsertUserEmpty_findUser l d.walletAddress
  unfold Ledger.findUser at hfu
  rw [hfu]
  rfl

/-- The source's `if currentStreak > highestStreak then currentStreak else
highestStreak` is `max`. -/
theorem if_gt_eq_max (a b : ℤ) : (if b > a then b else a) = max a b := by
  rw [max_def]
  split <;> split <;> omega

/-- For UTC-midnight-normalized dates `k * dayMs ≤ m * dayMs`, the source's
`Math.ceil(Math.abs(diff) / dayMs)` equals the exact day difference. -/
theorem diffDaysJs_day_multiples (k m : ℤ) (hkm : k ≤ m) :
    diffDaysJs (m * dayMs) (k * dayMs) = m - k := by
  unfold diffDaysJs
  have h1 : m * dayMs - k * dayMs = (m - k) * dayMs := by ring
  rw [h1, abs_of_nonneg (mul_nonneg (sub_nonneg.mpr hkm) (by norm_num [dayMs]))]
  push_cast
  rw [mul_div_cancel_right₀ _ (by norm_num [dayMs] : ((dayMs : ℤ) : ℚ) ≠ 0)]
  rw [← Int.cast_sub, Int.ceil_intCast]

/-- C5: the streak update performed by `recordTrade` on a fresh signature.
Writing `base` for the user row read by the update (the existing row, or the
schema-default row for a first-time wallet): the new `highestStreak` is
`max base.highestStreak newCurrentStreak` (so `currentStreak ≤ highestStreak`
always holds afterwards) and `lastTradeDate` becomes `today`; a wallet with
no prior `lastTradeDate` gets `currentStreak = 1`; and when the prior date
and `today` are UTC-midnight-normalized days `k` and `m` (with `k ≤ m`), a
day difference of exactly `1` increments the streak, a difference above `1`
resets it to `1`, and a difference of `0` leaves it unchanged. -/
theorem C5_streak_update :
    ∀ (l : Ledger) (d : TradeData) (today : ℤ),
      l.findTrade d.signature = none →
      ∀ u', (recordTrade l d today).2.findUser d.walletAddress = some u' →
        (u'.highestStreak =
            max (l.upsertUserEmpty d.walletAddress).1.highestStreak u'.currentStreak ∧
          u'.currentStreak ≤ u'.highestStreak ∧
          u'.lastTradeDate = some today) ∧
        ((l.upsertUserEmpty d.walletAddress).1.lastTradeDate = none →
          u'.currentStreak = 1) ∧
        (∀ k m : ℤ, k ≤ m → today = m * dayMs →
          (l.upsertUserEmpty d.walletAddress).1.lastTradeDate = some (k * dayMs) →
          u'.currentStreak =
            if m - k = 1 then (l.upsertUserEmpty d.walletAddress).1.currentStreak + 1
            else if m - k > 1 then 1
            else (l.upsertUserEmpty d.walletAddress).1.currentStreak) := by
  intro l d today hnew u' hu'
  rw [recordTrade_findUser_of_none l d today hnew] at hu'
  injection hu' with hu'
  subst hu'
  refine ⟨⟨?_, ?_, rfl⟩, ?_, ?_⟩
  · show (streakAfterTrade _ today).2 = max _ (streakAfterTrade _ today).1
    simp only [streakAfterTrade]
    exact if_gt_eq_max _ _
  · show (streakAfterTrade _ today).1 ≤ (streakAfterTrade _ today).2
    simp only [streakAfterTrade]
    rw [if_gt_eq_max]
    exact le_max_right _ _
  · intro hno
    show (streakAfterTrade _ today).1 = 1
    simp [streakAfterTrade, hno]
  · intro k m hkm htoday hlast
    show (streakAfterTrade _ today).1 = _
    subst htoday
    simp only [streakAfterTrade, hlast, diffDaysJs_day_multiples k m hkm]

/-- A user with a trade streak of 3, last trade on day 5, for the C5 witness. -/
def streakUser : User :=
  { walletAddress := "w1", lastTradeDate := some (5 * dayMs),
    currentStreak := 3, highestStreak := 3 }

/-- A ledger holding `streakUser`, for the C5 witness. -/
def streakLedger : Ledger := { trades := [], users := [streakUser], positions := [] }

/-- A trade by `streakUser`'s wallet, for the C5 witness. -/
def streakTrade : TradeData :=
  { walletAddress := "w1", marketId := "m1", tokenMint := "tm1", side := "BUY",
    price := 1, amount := 2, signature := "s5", timestamp := 0 }

/-- Witness for C5: recording a trade on day 6 for a wallet whose last trade
was on day 5 with streak 3 yields streak 4 and highest streak 4. -/
theorem C5_witness :
    streakLedger.findTrade "s5" = none ∧
    ((recordTrade streakLedger streakTrade (6 * dayMs)).2.findUser "w1" =
      some { walletAddress := "w1", lastTradeDate := some (6 * dayMs),
             currentStreak := 4, highestStreak := 4 }) ∧
    (4 : ℤ) = max streakUser.highestStreak 4 ∧ (4 : ℤ) ≤ 4 ∧
    (4 : ℤ) = (if (6 : ℤ) - 5 = 1 then streakUser.currentStreak + 1
               else if (6 : ℤ) - 5 > 1 then 1 else streakUser.currentStreak) := by
  have hd : diffDaysJs (6 * dayMs) (5 * dayMs) = 1 :=
    (diffDaysJs_day_multiples 5 6 (by decide)).trans (by decide)
  have hbase : (streakLedger.upsertUserEmpty "w1").1 = streakUser := by decide
  have hsa : streakAfterTrade streakUser (6 * dayMs) = (4, 4) := by
    simp [streakAfterTrade, streakUser, hd]
  have hu'0 : (recordTrade streakLedger streakTrade
      (6 * dayMs)).2.findUser streakTrade.walletAddress =
      some { walletAddress := "w1", lastTradeDate := some (6 * dayMs),
             currentStreak := 4, highestStreak := 4 } := by
    rw [recordTrade_findUser_of_none streakLedger streakTrade (6 * dayMs) (by decide)]
    rw [show (streakLedger.upsertUserEmpty streakTrade.walletAddress).1 = streakUser
      from hbase, hsa]
    rfl
  have hu' : (recordTrade streakLedger streakTrade (6 * dayMs)).2.findUser "w1" =
      some { walletAddress := "w1", lastTradeDate := some (6 * dayMs),
             currentStreak := 4, highestStreak := 4 } := hu'0
  have h := C5_streak_update streakLedger streakTrade (6 * dayMs) (by decide) _ hu'
  exact ⟨by decide, hu', h.1.1, h.1.2.1, h.2.2 5 6 (by decide) rfl (by decide)⟩

/-! ### C4: the transactional boundary of recordTrade -/

/-- Which of `recordTrade`'s awaited store writes throws, modelling a
persistence-layer failure injected at a single step. -/
structure FailurePlan where
  failUserUpsert : Bool
  failUserUpdate : Bool
  failTradeCreate : Bool
  failPositionWrite : Bool
  deriving DecidableEq

/-- `TradesService.recordTrade` with explicit failure propagation: the
source awaits `user.upsert`, `user.update`, `trade.create` and the position
write in sequence with no surrounding `prisma.$transaction`, so a step that
throws leaves every earlier step's write committed and skips the rest. The
returned ledger is the durable state after the run; `Except.error` is the
exception surfaced to the caller. With an all-`false` plan this is exactly
`recordTrade`. -/
def recordTradeF (l : Ledger) (d : TradeData) (today : ℤ) (fp : FailurePlan) :
    Except String Trade × Ledger :=
  match l.findTrade d.signature with
  | some t => (Except.ok t, l)
  | none =>
      if fp.failUserUpsert then (Except.error "user.upsert failed", l)
      else
        let r := l.upsertUserEmpty d.walletAddress
        if fp.failUserUpdate then (Except.error "user.update failed", r.2)
        else
          let sh := streakAfterTrade r.1 today
          let l2 := r.2.updateUserStreak d.walletAddress today sh.1 sh.2
          if fp.failTradeCreate then (Except.error "trade.create failed", l2)
          else
            let trade := mkTrade d
            let l3 := { l2 with trades := l2.trades ++ [trade] }
            if fp.failPositionWrite then (Except.error "position write failed", l3)
            else (Except.ok trade, { l3 with positions := updatePositionAfterTrade l3.positions d })

/-- C4 counterexample: with a fresh signature and a failure injected at the
trade insert (step 3), the error is surfaced yet the resulting ledger is not
the initial one — the streak update of step 2 has been committed, so the
claimed all-or-nothing atomicity fails at this concrete input. -/
theorem C4_counterexample :
    (recordTradeF emptyLedger sampleBuy 0
        { failUserUpsert := false, failUserUpdate := false,
          failTradeCreate := true, failPositionWrite := false }).1 =
      Except.error "trade.create failed" ∧
    (recordTradeF emptyLedger sampleBuy 0
        { failUserUpsert := false, failUserUpdate := false,
          failTradeCreate := true, failPositionWrite := false }).2 ≠ emptyLedger :=
  ⟨rfl, by decide⟩

/-- C4 as amended: `recordTrade`'s steps 2-4 are sequential, not atomic.
When every store write succeeds the fallible run agrees with `recordTrade`;
but when the trade insert (step 3) throws on a fresh signature, the error is
surfaced while the streak update of step 2 remains durably committed — the
resulting state is exactly the post-streak-update ledger, with the `Trade`
and `Position` tables untouched. -/
theorem C4_no_transactional_boundary :
    (∀ (l : Ledger) (d : TradeData) (today : ℤ),
        recordTradeF l d today
          { failUserUpsert := false, failUserUpdate := false,
            failTradeCreate := false, failPositionWrite := false } =
          (Except.ok (recordTrade l d today).1, (recordTrade l d today).2)) ∧
    (∀ (l : Ledger) (d : TradeData) (today : ℤ),
        l.findTrade d.signature = none →
        (recordTradeF l d today
            { failUserUpsert := false, failUserUpdate := false,
              failTradeCreate := true, failPositionWrite := false }).1 =
          Except.error "trade.create failed" ∧
        (recordTradeF l d today
            { failUserUpsert := false, failUserUpdate := false,
              failTradeCreate := true, failPositionWrite := false }).2 =
          (l.upsertUserEmpty d.walletAddress).2.updateUserStreak d.walletAddress today
            (streakAfterTrade (l.upsertUserEmpty d.walletAddress).1 today).1
            (streakAfterTrade (l.upsertUserEmpty d.walletAddress).1 today).2 ∧
        (recordTradeF l d today
            { failUserUpsert := false, failUserUpdate := false,
              failTradeCreate := true, failPositionWrite := false }).2.trades = l.trades ∧
        (recordTradeF l d today
            { failUserUpsert := false, failUserUpdate := false,
              failTradeCreate := true, failPositionWrite := false }).2.positions =
          l.positions) := by
  constructor
  · intro l d today
    cases h : l.findTrade d.signature with
    | some t => simp [recordTradeF, recordTrade, h]
    | none => simp [recordTradeF, recordTrade, h]
  · intro l d today h
    refine ⟨by simp [recordTradeF, h], by simp [recordTradeF, h], ?_, ?_⟩
    · simp [recordTradeF, h]
    · simp [recordTradeF, h]

/-- Witness for C4's amended theorem, at a concrete fresh trade. -/
theorem C4_witness :
    emptyLedger.findTrade "sigA" = none ∧
    (recordTradeF emptyLedger sampleBuy 0
        { failUserUpsert := false, failUserUpdate := false,
          failTradeCreate := true, failPositionWrite := false }).2.trades =
      emptyLedger.trades ∧
    (recordTradeF emptyLedger sampleBuy 0
        { failUserUpsert := false, failUserUpdate := false,
          failTradeCreate := true, failPositionWrite := false }).2.positions =
      emptyLedger.positions := by
  have h := C4_no_transactional_boundary.2 emptyLedger sampleBuy 0 (by decide)
  exact ⟨by decide, h.2.2.1, h.2.2.2⟩

/-! ### C6: fee reconciliation -/

/-- One group of `prisma.trade.groupBy(by: [marketId, tokenMint],
_sum: { fee })` inside `FeeReconciliationJob.reconcileFees`; the aggregate
`_sum.fee` is null (`none`) when no row contributes a fee. -/
structure FeeGroup where
  marketId : String
  tokenMint : String
  feeSum : Option ℚ
  deriving DecidableEq

/-- A row of the append-only `ProtocolRevenue` table
(`prisma.protocolRevenue.create`). -/
structure RevenueRecord where
  marketId : String
  assetMint : String
  amount : ℚ
  deriving DecidableEq

/-- An alert sent through `AlertService.sendAlert(title, message)`. -/
structure Alert where
  title : String
  message : String
  deriving DecidableEq

/-- The alert title used for the missing-treasury-account condition. -/
def missingTreasuryTitle : String := "Fee Discordance - Missing Treasury ATA"

/-- The alert title used for the ledger-mismatch condition. -/
def ledgerMismatchTitle : String := "Fee Ledger Mismatch"

/-- The per-group body of `FeeReconciliationJob.reconcileFees`: a group with
`expectedAmount === 0` is skipped (`continue`); otherwise the treasury's
balance is fetched (`bal mint` models `getSpecificTokenBalance(treasury,
mint)`, `none` when the treasury has no token account, and the source's
`balanceInfo ? balanceInfo.uiAmount : 0` is `getD 0`), one `ProtocolRevenue`
row is appended, and at most one alert is raised: missing treasury when
`actualAmount === 0 && expectedAmount > 0`, else ledger mismatch when
`actualAmount > 0 && diff / actualAmount > 0.01`. -/
def reconcileGroup (bal : String → Option ℚ) (g : FeeGroup) :
    List RevenueRecord × List Alert :=
  let expectedAmount := g.feeSum.getD 0
  if expectedAmount = 0 then ([], [])
  else
    let actualAmount := (bal g.tokenMint).getD 0
    let diff := |expectedAmount - actualAmount|
    let revenue : RevenueRecord :=
      { marketId := g.marketId, assetMint := g.tokenMint, amount := expectedAmount }
    if actualAmount = 0 ∧ expectedAmount > 0 then
      ([revenue],
        [{ title := missingTreasuryTitle,
           message := "Expected " ++ toString expectedAmount ++ " of token " ++
             g.tokenMint ++ " for market " ++ g.marketId ++
             ", but treasury has no ATA or 0 balance." }])
    else if actualAmount > 0 ∧ diff / actualAmount > 1 / 100 then
      ([revenue],
        [{ title := ledgerMismatchTitle,
           message := "Database expects " ++ toString expectedAmount ++
             " collected, but on-chain treasury shows " ++ toString actualAmount ++
             " for token " ++ g.tokenMint ++ " in market " ++ g.marketId ++ "." }])
    else ([revenue], [])

/-- `FeeReconciliationJob.reconcileFees`: if `config.TREASURY_WALLET` is not
configured (a falsy value, modelled `none`) the whole run returns after a
warning — no alerts, no Revenue rows; otherwise each fee group is processed
in order by `reconcileGroup`. -/
def reconcileFees (treasuryWallet : Option String) (groups : List FeeGroup)
    (bal : String → String → Option ℚ) : List RevenueRecord × List Alert :=
  match treasuryWallet with
  | none => ([], [])
  | some addr =>
      groups.foldl (fun acc g =>
        let r := reconcileGroup (bal addr) g
        (acc.1 ++ r.1, acc.2 ++ r.2)) ([], [])

theorem reconcileFees_foldl_join (addr : String) (bal : String → String → Option ℚ) :
    ∀ (groups : List FeeGroup) (acc : List RevenueRecord × List Alert),
      groups.foldl (fun acc g =>
          let r := reconcileGroup (bal addr) g
          (acc.1 ++ r.1, acc.2 ++ r.2)) acc =
        (acc.1 ++ (groups.map (fun g => (reconcileGroup (bal addr) g).1)).flatten,
         acc.2 ++ (groups.map (fun g => (reconcileGroup (bal addr) g).2)).flatten)
  | [], acc => by simp
  | g :: groups, acc => by
      rw [List.foldl_cons, reconcileFees_foldl_join addr bal groups]
      simp

/-- C6: when the treasury wallet is unconfigured the whole reconciliation
run produces no alerts and no Revenue rows; when configured, the run is the
concatenation of the per-group results in order, and for every group with a
nonzero expected fee total the missing-treasury alert is raised iff the
expected amount is positive while the treasury balance is zero or absent,
and the ledger-mismatch alert is raised iff the balance is positive and
`|expected - actual| / actual > 1/100`. -/
theorem C6_fee_reconciliation :
    (∀ (groups : List FeeGroup) (bal : String → String → Option ℚ),
        reconcileFees none groups bal = ([], [])) ∧
    (∀ (addr : String) (groups : List FeeGroup) (bal : String → String → Option ℚ),
        reconcileFees (some addr) groups bal =
          ((groups.map (fun g => (reconcileGroup (bal addr) g).1)).flatten,
           (groups.map (fun g => (reconcileGroup (bal addr) g).2)).flatten)) ∧
    (∀ (bal : String → Option ℚ) (g : FeeGroup),
        g.feeSum.getD 0 ≠ 0 →
        (missingTreasuryTitle ∈ (reconcileGroup bal g).2.map Alert.title ↔
            g.feeSum.getD 0 > 0 ∧ (bal g.tokenMint).getD 0 = 0) ∧
        (ledgerMismatchTitle ∈ (reconcileGroup bal g).2.map Alert.title ↔
            (bal g.tokenMint).getD 0 > 0 ∧
              |g.feeSum.getD 0 - (bal g.tokenMint).getD 0| / (bal g.tokenMint).getD 0 >
                1 / 100)) := by
  refine ⟨fun groups bal => rfl, fun addr groups bal => ?_, fun bal g hne => ?_⟩
  · show groups.foldl _ ([], []) = _
    rw [reconcileFees_foldl_join addr bal groups ([], [])]
    simp
  · have htitle : missingTreasuryTitle ≠ ledgerMismatchTitle := by decide
    unfold reconcileGroup
    rw [if_neg hne]
    by_cases hc1 : (bal g.tokenMint).getD 0 = 0 ∧ g.feeSum.getD 0 > 0
    · rw [if_pos hc1]
      constructor
      · simpa using ⟨hc1.2, hc1.1⟩
      · simp only [List.map_cons, List.map_nil, List.mem_singleton]
        constructor
        · intro hmem
          exact absurd hmem htitle.symm
        · rintro ⟨ha, _⟩
          exact absurd hc1.1 ha.ne'
    · rw [if_neg hc1]
      by_cases hc2 : (bal g.tokenMint).getD 0 > 0 ∧
          |g.feeSum.getD 0 - (bal g.tokenMint).getD 0| / (bal g.tokenMint).getD 0 > 1 / 100
      · rw [if_pos hc2]
        constructor
        · simp only [List.map_cons, List.map_nil, List.mem_singleton]
          constructor
          · intro hmem
            exact absurd hmem htitle
          · rintro ⟨_, hzero⟩
            exact absurd hzero hc2.1.ne'
        · simpa using hc2
      · rw [if_neg hc2]
        constructor
        · simp only [List.map_nil, List.not_mem_nil, false_iff]
          rintro ⟨hpos, hzero⟩
          exact hc1 ⟨hzero, hpos⟩
        · simpa using hc2

/-- A fee group expecting 100 units, for the C6 witness (the spec's own
threshold examples). -/
def feeGroup100 : FeeGroup := { marketId := "m1", tokenMint := "tmA", feeSum := some 100 }

/-- Arithmetic fact for the C6 witness: an actual balance of 98 against an
expected 100 diverges by more than 1%. -/
theorem fee_arith_98 : ((98 : ℚ) > 0) ∧ |(100 : ℚ) - 98| / 98 > 1 / 100 := by
  constructor
  · norm_num
  · rw [abs_of_pos (by norm_num : (0:ℚ) < 100 - 98)]
    norm_num

/-- Arithmetic fact for the C6 witness: an actual balance of 99.5 against an
expected 100 diverges by less than 1%, so no mismatch alert fires. -/
theorem fee_arith_995 : ¬(((199 / 2 : ℚ) > 0) ∧
    |(100 : ℚ) - 199 / 2| / (199 / 2) > 1 / 100) := by
  rintro ⟨-, habs⟩
  rw [abs_of_pos (by norm_num : (0:ℚ) < 100 - 199 / 2)] at habs
  norm_num at habs

/-- Arithmetic fact for the C6 witness: with a positive balance of 99.5 the
missing-treasury condition does not hold. -/
theorem fee_arith_995_pos : ¬(((100 : ℚ) > 0) ∧ ((199 / 2 : ℚ) = 0)) := by
  rintro ⟨-, h⟩
  norm_num at h

/-- Witness for C6: the unconfigured-treasury skip, the spec's
`expected=100, actual=0` missing-treasury example, its `actual=98` mismatch
example, and its `actual=99.5` no-alert example. -/
theorem C6_witness :
    reconcileFees none [feeGroup100] (fun _ _ => none) = ([], []) ∧
    missingTreasuryTitle ∈
      (reconcileGroup (fun _ => some 0) feeGroup100).2.map Alert.title ∧
    ledgerMismatchTitle ∈
      (reconcileGroup (fun _ => some 98) feeGroup100).2.map Alert.title ∧
    ledgerMismatchTitle ∉
      (reconcileGroup (fun _ => some (199 / 2)) feeGroup100).2.map Alert.title ∧
    missingTreasuryTitle ∉
      (reconcileGroup (fun _ => some (199 / 2)) feeGroup100).2.map Alert.title := by
  refine ⟨C6_fee_reconciliation.1 [feeGroup100] (fun _ _ => none), ?_, ?_, ?_, ?_⟩
  · exact ((C6_fee_reconciliation.2.2 (fun _ => some 0) feeGroup100 (by decide)).1).mpr
      ⟨by decide, rfl⟩
  · exact ((C6_fee_reconciliation.2.2 (fun _ => some 98) feeGroup100 (by decide)).2).mpr
      fee_arith_98
  · exact fun hmem => fee_arith_995
      (((C6_fee_reconciliation.2.2 (fun _ => some (199 / 2)) feeGroup100
        (by decide)).2).mp hmem)
  · exact fun hmem => fee_arith_995_pos
      (((C6_fee_reconciliation.2.2 (fun _ => some (199 / 2)) feeGroup100
        (by decide)).1).mp hmem)

/-! ### C9: bounded retry with exponential backoff -/

/-- `SolanaService.MAX_RETRIES`. -/
def MAX_RETRIES : ℕ := 3

/-- `SolanaService.RETRY_DELAY_MS`. -/
def RETRY_DELAY_MS : ℕ := 1000

/-- The retry loop of `SolanaService.withRetry`. `fn i` is the outcome of
the `i`-th attempt of the wrapped RPC call; the returned list records the
backoff delays slept between attempts (`RETRY_DELAY_MS * 2 ** i` after a
failed attempt `i`, skipped after the final attempt). `fuel` is the number
of loop iterations remaining (`retries - i`); when it runs out the loop
exits and the last error is thrown. -/
def withRetryGo {α : Type} (fn : ℕ → Except String α) (retries : ℕ) :
    ℕ → ℕ → String → Except String α × List ℕ
  | 0, _, last => (Except.error last, [])
  | fuel + 1, i, _ =>
      match fn i with
      | Except.ok a => (Except.ok a, [])
      | Except.error e =>
          if i < retries - 1 then
            let rest := withRetryGo fn retries fuel (i + 1) e
            (rest.1, RETRY_DELAY_MS * 2 ^ i :: rest.2)
          else (Except.error e, [])

/-- `SolanaService.withRetry(fn, retries)` with `lastError` initialized to
`"Unknown error"`. Every outbound RPC helper of the service —
`getTokenBalances`, `getSpecificTokenBalance` (balance fetch),
`getTransactionHistory` (signature history), `getParsedTransaction`
(transaction fetch) and `getMintInfo` (mint info) — wraps its connection
call in this function at the default `retries = MAX_RETRIES`. -/
def withRetry {α : Type} (fn : ℕ → Except String α) (retries : ℕ) :
    Except String α × List ℕ :=
  withRetryGo fn retries retries 0 "Unknown error"

/-- C9: at the default `MAX_RETRIES = 3`, the wrapped call is attempted at
most three times (the outcome depends only on attempts 0-2); between
attempts the slept delays are `[1000]`, then `[1000, 2000]` — doubling each
retry; a success at any attempt is returned immediately; and when all three
attempts fail, the error of the final attempt is thrown to the caller
instead of retrying further. -/
theorem C9_with_retry_bounded_backoff :
    (∀ (α : Type) (fn fn' : ℕ → Except String α),
        (∀ i, i < MAX_RETRIES → fn i = fn' i) →
        withRetry fn MAX_RETRIES = withRetry fn' MAX_RETRIES) ∧
    (∀ (α : Type) (fn : ℕ → Except String α) (a : α),
        fn 0 = Except.ok a → withRetry fn MAX_RETRIES = (Except.ok a, [])) ∧
    (∀ (α : Type) (fn : ℕ → Except String α) (e0 : String) (a : α),
        fn 0 = Except.error e0 → fn 1 = Except.ok a →
        withRetry fn MAX_RETRIES = (Except.ok a, [1000])) ∧
    (∀ (α : Type) (fn : ℕ → Except String α) (e0 e1 : String) (a : α),
        fn 0 = Except.error e0 → fn 1 = Except.error e1 → fn 2 = Except.ok a →
        withRetry fn MAX_RETRIES = (Except.ok a, [1000, 2000])) ∧
    (∀ (α : Type) (fn : ℕ → Except String α) (e0 e1 e2 : String),
        fn 0 = Except.error e0 → fn 1 = Except.error e1 → fn 2 = Except.error e2 →
        withRetry fn MAX_RETRIES = (Except.error e2, [1000, 2000])) := by
  refine ⟨?_, ?_, ?_, ?_, ?_⟩
  · intro α fn fn' hagree
    have h0 := hagree 0 (by decide)
    have h1 := hagree 1 (by decide)
    have h2 := hagree 2 (by decide)
    simp [withRetry, MAX_RETRIES, withRetryGo, h0, h1, h2]
  · intro α fn a h0
    simp [withRetry, MAX_RETRIES, withRetryGo, h0]
  · intro α fn e0 a h0 h1
    simp [withRetry, MAX_RETRIES, RETRY_DELAY_MS, withRetryGo, h0, h1]
  · intro α fn e0 e1 a h0 h1 h2
    simp [withRetry, MAX_RETRIES, RETRY_DELAY_MS, withRetryGo, h0, h1, h2]
  · intro α fn e0 e1 e2 h0 h1 h2
    simp [withRetry, MAX_RETRIES, RETRY_DELAY_MS, withRetryGo, h0, h1, h2]

/-- Witness for C9: three failing attempts at a concrete `fn` surface the
final attempt's error after backoffs of 1000 ms and 2000 ms, and a
first-attempt success returns immediately with no backoff. -/
theorem C9_witness :
    withRetry (fun i => (Except.error (toString i) : Except String ℕ)) MAX_RETRIES =
      (Except.error "2", [1000, 2000]) ∧
    withRetry (fun _ => (Except.ok 7 : Except String ℕ)) MAX_RETRIES =
      (Except.ok 7, []) := by
  constructor
  · exact (C9_with_retry_bounded_backoff.2.2.2.2) ℕ _ "0" "1" "2" rfl rfl rfl
  · exact (C9_with_retry_bounded_backoff.2.1) ℕ _ 7 rfl

/-! ### The Solana listener: backfill (C7) and live handling (C8, C10) -/

/-- A `Market` row as read by the listener (`prisma.market.findMany` /
`findFirst`). -/
structure Market where
  id : String
  yesTokenMint : String
  noTokenMint : String
  status : String
  deriving DecidableEq

/-- A token transfer parsed from a transaction
(`SolanaService.parseTokenTransfers`). -/
structure ParsedTransfer where
  signature : String
  fromWallet : String
  toWallet : String
  tokenMint : String
  amount : ℚ
  timestamp : ℤ
  deriving DecidableEq

/-- The state touched by the backfill pass of `SolanaListener`: the
`Position` table and the `IndexerState` singleton's `lastSignature`
checkpoint. -/
structure BackfillState where
  positions : List Position
  lastSignature : Option String
  deriving DecidableEq

/-- `SolanaListener.updatePositionFromTransfer`. The source's body is
empty: its comment says the handler "would re-trigger
handleTokenAccountChange logic" and that this "ensures we don't miss past
trades", but "For MVP" it only records checkpoint progress — the function
itself performs no mutation at all. -/
def updatePositionFromTransfer (st : BackfillState) (_transfer : ParsedTransfer) :
    BackfillState :=
  st

/-- `SolanaListener.indexTransactionsForMint(mint, untilSignature)`:
`signatures` is the result of `getTransactionHistory(mint, limit 100, after:
untilSignature)` in provider order (newest first); `transfersOf sig` models
`parseTokenTransfers(sig)`. The engine returns early on an empty history;
otherwise it processes the signatures chronologically (`.reverse`), feeds
every transfer whose mint matches to `updatePositionFromTransfer`, and
advances the checkpoint to each signature after processing it. -/
def indexTransactionsForMint (st : BackfillState) (mint : String)
    (signatures : List String) (transfersOf : String → List ParsedTransfer) :
    BackfillState :=
  if signatures.isEmpty then st
  else
    signatures.reverse.foldl (fun st sig =>
      let st' := (transfersOf sig).foldl (fun st tr =>
          if tr.tokenMint == mint then updatePositionFromTransfer st tr else st) st
      { st' with lastSignature := some sig }) st

theorem foldl_id {α β : Type} (f : α → β → α) (h : ∀ a b, f a b = a) :
    ∀ (l : List β) (a : α), l.foldl f a = a
  | [], _ => rfl
  | b :: l, a => by rw [List.foldl_cons, h]; exact foldl_id f h l a

/-- Initial backfill state for the C7 evaluation: one existing position,
no checkpoint. -/
def bfInit : BackfillState :=
  { positions := [{ walletAddress := "w1", marketId := "m1", tokenMint := "M",
                    amount := 1, averageEntryPrice := 1, realizedPnl := 0 }],
    lastSignature := none }

/-- Transfers per signature for the C7 evaluation: signature `"S1"` carries
a transfer of the tracked mint `"M"`. -/
def bfTransfers : String → List ParsedTransfer := fun sig =>
  if sig == "S1" then
    [{ signature := "S1", fromWallet := "w9", toWallet := "w1", tokenMint := "M",
       amount := 5, timestamp := 0 }]
  else []

/-- C7, evaluated on the code: the backfill pass never changes any
`Position` row — `updatePositionFromTransfer` has an empty body — even
though it advances the checkpoint past every processed signature. At the
concrete failing input (history `["S2", "S1"]`, newest first, where `"S1"`
contains a transfer of the tracked mint), the positions are untouched while
the checkpoint ends at the newest signature. -/
theorem C7_backfill_stub :
    (∀ (st : BackfillState) (mint : String) (signatures : List String)
        (transfersOf : String → List ParsedTransfer),
        (indexTransactionsForMint st mint signatures transfersOf).positions =
          st.positions) ∧
    (indexTransactionsForMint bfInit "M" ["S2", "S1"] bfTransfers).positions =
      bfInit.positions ∧
    (indexTransactionsForMint bfInit "M" ["S2", "S1"] bfTransfers).lastSignature =
      some "S2" ∧
    (bfTransfers "S1").any (fun tr => tr.tokenMint == "M") = true := by
  have hmain : ∀ (st : BackfillState) (mint : String) (signatures : List String)
      (transfersOf : String → List ParsedTransfer),
      (indexTransactionsForMint st mint signatures transfersOf).positions = st.positions := by
    intro st mint signatures transfersOf
    unfold indexTransactionsForMint
    split
    · rfl
    · have hinner : ∀ (trs : List ParsedTransfer) (s : BackfillState),
          trs.foldl (fun st tr =>
            if tr.tokenMint == mint then updatePositionFromTransfer st tr else st) s = s :=
        foldl_id _ (fun s tr => by unfold updatePositionFromTransfer; split <;> rfl)
      generalize signatures.reverse = l
      induction l generalizing st with
      | nil => rfl
      | cons s l ih =>
          rw [List.foldl_cons]
          rw [ih]
          show ((transfersOf s).foldl (fun st tr =>
            if tr.tokenMint == mint then updatePositionFromTransfer st tr else st)
              st).positions = st.positions
          rw [hinner]
  exact ⟨hmain, hmain bfInit "M" ["S2", "S1"] bfTransfers, by decide, by decide⟩

/-- A raw `onProgramAccountChange` notification, decoded per the source's
fixed token-account layout: `dataLen` is the account data's byte length (the
source requires at least 165), `mint` is the base58 of bytes 0-32, `owner`
of bytes 32-64, and `rawAmount` the little-endian u64 at bytes 64-72. -/
structure RawNotification where
  dataLen : ℕ
  mint : String
  owner : String
  rawAmount : ℕ
  deriving DecidableEq

/-- The state touched by `SolanaListener.handleTokenAccountChange`: the
`Market` catalog (read) and the `User` and `Position` tables (written).
The `liveQueue` component exists only so that C8's claimed bounded FIFO
queue can be stated: the source has no event queue, and no source operation
ever touches this field. -/
structure ListenerState where
  markets : List Market
  users : List User
  positions : List Position
  liveQueue : List RawNotification
  deriving DecidableEq

/-- `prisma.market.findFirst(where: OR yes/no mint, status active)` inside
the handler. -/
def findMarketByMint (markets : List Market) (mint : String) : Option Market :=
  markets.find? (fun mk =>
    (mk.yesTokenMint == mint || mk.noTokenMint == mint) && mk.status == "active")

/-- JavaScript `x || d` on an optional number: `d` when `x` is undefined or
`0` (both falsy), the value otherwise. -/
def jsNumOr (x : Option ℕ) (d : ℕ) : ℕ :=
  match x with
  | some v => if v = 0 then d else v
  | none => d

/-- `prisma.user.upsert(where: walletAddress, create: { walletAddress },
update: {})` on the `User` table, as issued by the handler. -/
def upsertUserIn (us : List User) (w : String) : List User :=
  match us.find? (userMatches w) with
  | some _ => us
  | none => us ++ [defaultUser w]

/-- `SolanaListener.handleTokenAccountChange`, which the websocket
subscription of `subscribeToTokenProgram` invokes directly (fire-and-forget,
its promise never awaited by the client) for every delivered notification —
there is no intermediate queue: data shorter than 165 bytes is ignored; a
mint not belonging to an active market is ignored; otherwise the owner is
upserted as a `User` and the `Position` row at `(owner, market.id, mint)`
is overwritten with `uiAmount = rawAmount / 10 ** (mintInfo?.decimals || 6)`
— created with `averageEntryPrice: 0` if absent, else updated in `amount`
only. `mintDecimals mint` models `getMintInfo(mint)?.decimals` (`none` when
the lookup fails). This is the effect of one handler run in isolation; the
source does not serialize concurrent runs, whose internal awaits may
interleave. -/
def handleTokenAccountChange (st : ListenerState) (n : RawNotification)
    (mintDecimals : String → Option ℕ) : ListenerState :=
  if n.dataLen < 165 then st
  else
    match findMarketByMint st.markets n.mint with
    | none => st
    | some market =>
        let users := upsertUserIn st.users n.owner
        let decimals := jsNumOr (mintDecimals n.mint) 6
        let uiAmount : ℚ := (n.rawAmount : ℚ) / 10 ^ decimals
        { st with
          users := users,
          positions := upsertPositionIn st.positions n.owner market.id n.mint
            { walletAddress := n.owner, marketId := market.id, tokenMint := n.mint,
              amount := uiAmount, averageEntryPrice := 0,
              realizedPnl := defaultRealizedPnl }
            (fun p => { p with amount := uiAmount }) }

/-- C8's claimed delivery action, stated from the claim's words purely for
refutation: a full-size notification whose mint is tracked is appended to
the bounded FIFO `liveQueue` (capacity 100) when the queue is not full and
dropped when it is full, with the ledger write left to the queue's
consumer. -/
def claimedEnqueue (st : ListenerState) (n : RawNotification) : ListenerState :=
  if n.dataLen < 165 then st
  else
    match findMarketByMint st.markets n.mint with
    | none => st
    | some _ =>
        if st.liveQueue.length < 100 then { st with liveQueue := st.liveQueue ++ [n] }
        else st

/-- One active market tracking mints `"tmY"`/`"tmN"`, empty tables, empty
queue. -/
def listenerInit : ListenerState :=
  { markets := [{ id := "m1", yesTokenMint := "tmY", noTokenMint := "tmN",
                  status := "active" }],
    users := [], positions := [], liveQueue := [] }

/-- A full-size notification for tracked mint `"tmY"` with raw amount 5. -/
def notifFive : RawNotification :=
  { dataLen := 165, mint := "tmY", owner := "w1", rawAmount := 5 }

/-- C8 counterexample: on a tracked-mint notification arriving at an empty
queue, the claim says the event is appended to the FIFO queue (queue
becomes `[notifFive]`); the source's delivery callback instead leaves the
queue empty — no queue exists — and no state the source maintains ever
holds the event. -/
theorem C8_counterexample :
    handleTokenAccountChange listenerInit notifFive (fun _ => some 6) ≠
      claimedEnqueue listenerInit notifFive ∧
    (handleTokenAccountChange listenerInit notifFive (fun _ => some 6)).liveQueue = [] ∧
    (claimedEnqueue listenerInit notifFive).liveQueue = [notifFive] := by
  refine ⟨?_, rfl, rfl⟩
  intro h
  have h' := congrArg ListenerState.liveQueue h
  have h'' : ([] : List RawNotification) = [notifFive] := h'
  exact absurd h'' (by decide)

/-- C8 as amended: the listener has no event queue. The delivery callback
never enqueues anything (`liveQueue` is untouched by the handler, in every
case, so no notification is ever held in — or dropped from — a queue for
capacity reasons); a single handler run on a notification with short data
or an untracked mint leaves the state unchanged; and a single handler run
on a tracked notification performs the ledger write itself on the delivery
path, overwriting the position row. No queue-based serialization exists:
the callback is fired without awaiting its promise and the handler's
internal awaits permit concurrent runs to interleave, so the original
claim's single-consumer in-order draining has no counterpart in the source
(interleaving itself is outside this sequential embedding; the theorem
states only the effect of one handler run in isolation). -/
theorem C8_no_queue_handler_effects :
    (∀ (st : ListenerState) (n : RawNotification) (dec : String → Option ℕ),
        (handleTokenAccountChange st n dec).liveQueue = st.liveQueue) ∧
    (∀ (st : ListenerState) (n : RawNotification) (dec : String → Option ℕ),
        n.dataLen < 165 ∨ findMarketByMint st.markets n.mint = none →
        handleTokenAccountChange st n dec = st) ∧
    (∀ (st : ListenerState) (n : RawNotification) (dec : String → Option ℕ)
        (market : Market), ¬(n.dataLen < 165) →
        findMarketByMint st.markets n.mint = some market →
        (handleTokenAccountChange st n dec).positions =
          upsertPositionIn st.positions n.owner market.id n.mint
            { walletAddress := n.owner, marketId := market.id, tokenMint := n.mint,
              amount := (n.rawAmount : ℚ) / 10 ^ (jsNumOr (dec n.mint) 6),
              averageEntryPrice := 0, realizedPnl := defaultRealizedPnl }
            (fun p => { p with
              amount := (n.rawAmount : ℚ) / 10 ^ (jsNumOr (dec n.mint) 6) })) := by
  refine ⟨?_, ?_, ?_⟩
  · intro st n dec
    unfold handleTokenAccountChange
    split
    · rfl
    · split <;> rfl
  · intro st n dec h
    rcases h with hshort | hm
    · simp [handleTokenAccountChange, hshort]
    · unfold handleTokenAccountChange
      rw [hm]
      split <;> rfl
  · intro st n dec market hlen hm
    unfold handleTokenAccountChange
    rw [if_neg hlen, hm]

/-- Witness for C8's amended theorem at concrete inputs: the queue frame on
a tracked notification, the untracked-mint drop, and the handler's position
write. -/
theorem C8_witness :
    (handleTokenAccountChange listenerInit notifFive (fun _ => some 6)).liveQueue =
      listenerInit.liveQueue ∧
    handleTokenAccountChange listenerInit
      { dataLen := 165, mint := "other", owner := "w1", rawAmount := 5 }
      (fun _ => some 6) = listenerInit ∧
    (handleTokenAccountChange listenerInit notifFive (fun _ => some 6)).positions =
      upsertPositionIn listenerInit.positions "w1" "m1" "tmY"
        { walletAddress := "w1", marketId := "m1", tokenMint := "tmY",
          amount := ((5:ℕ) : ℚ) / 10 ^ (jsNumOr (some 6) 6),
          averageEntryPrice := 0, realizedPnl := defaultRealizedPnl }
        (fun p => { p with amount := ((5:ℕ) : ℚ) / 10 ^ (jsNumOr (some 6) 6) }) := by
  refine ⟨C8_no_queue_handler_effects.1 listenerInit notifFive (fun _ => some 6),
    C8_no_queue_handler_effects.2.1 listenerInit
      { dataLen := 165, mint := "other", owner := "w1", rawAmount := 5 }
      (fun _ => some 6) (Or.inr (by decide)), ?_⟩
  exact C8_no_queue_handler_effects.2.2 listenerInit notifFive (fun _ => some 6)
    { id := "m1", yesTokenMint := "tmY", noTokenMint := "tmN", status := "active" }
    (by decide) (by decide)

/-! ### C10: the live listener's position writes -/

/-- C10's claimed scaling, stated from the claim's words purely for
comparison: the raw on-chain balance divided by `10 ** decimals`, where
`decimals` comes from the mint metadata when it is available and defaults
to 6 only when the metadata is unavailable. -/
def claimedUiAmount (rawAmount : ℕ) (mintDecimals : Option ℕ) : ℚ :=
  (rawAmount : ℚ) / 10 ^ (mintDecimals.getD 6)

/-- C10 counterexample: for a mint whose metadata is available and reports
`decimals = 0` (raw balance 5), the claim's scaling gives `5 / 10^0 = 5`,
but the source's `mintInfo?.decimals || 6` treats `0` as falsy and divides
by `10^6`, writing `5 / 10^6` instead. -/
theorem C10_counterexample :
    (handleTokenAccountChange listenerInit notifFive (fun _ => some 0)).positions.map
        Position.amount = [((5:ℕ) : ℚ) / 10 ^ 6] ∧
    (handleTokenAccountChange listenerInit notifFive (fun _ => some 0)).positions.map
        Position.amount ≠ [claimedUiAmount notifFive.rawAmount (some 0)] := by
  have h2 : (handleTokenAccountChange listenerInit notifFive
      (fun _ => some 0)).positions.map Position.amount = [((5:ℕ) : ℚ) / 10 ^ 6] := rfl
  refine ⟨h2, ?_⟩
  rw [h2]
  intro h
  rw [List.cons.injEq] at h
  have h' := h.1
  norm_num [claimedUiAmount, notifFive] at h'

/-- C10 as amended: when the live balance listener creates a `Position`
that did not previously exist it sets `averageEntryPrice` to `0` (and
`realizedPnl` to the schema default `0`); when it updates an existing
`Position` it modifies only the `amount` field; in both cases `amount`
becomes the raw on-chain balance divided by `10 ** decimals`, where
`decimals` defaults to 6 when the mint metadata is unavailable **or reports
zero decimals** (JavaScript `|| 6` treats `0` as falsy), and is the reported
value otherwise. -/
theorem C10_listener_position_frame :
    (∀ (st : ListenerState) (n : RawNotification) (dec : String → Option ℕ)
        (market : Market), ¬(n.dataLen < 165) →
        findMarketByMint st.markets n.mint = some market →
        (findPositionIn st.positions n.owner market.id n.mint = none →
          findPositionIn (handleTokenAccountChange st n dec).positions
              n.owner market.id n.mint =
            some { walletAddress := n.owner, marketId := market.id, tokenMint := n.mint,
                   amount := (n.rawAmount : ℚ) / 10 ^ (jsNumOr (dec n.mint) 6),
                   averageEntryPrice := 0, realizedPnl := 0 }) ∧
        (∀ p, findPositionIn st.positions n.owner market.id n.mint = some p →
          findPositionIn (handleTokenAccountChange st n dec).positions
              n.owner market.id n.mint =
            some { p with amount := (n.rawAmount : ℚ) / 10 ^ (jsNumOr (dec n.mint) 6) })) ∧
    jsNumOr none 6 = 6 ∧ jsNumOr (some 0) 6 = 6 ∧
    (∀ v : ℕ, v ≠ 0 → jsNumOr (some v) 6 = v) := by
  refine ⟨?_, rfl, rfl, fun v hv => by simp [jsNumOr, hv]⟩
  intro st n dec market hlen hm
  have hpos : (handleTokenAccountChange st n dec).positions =
      upsertPositionIn st.positions n.owner market.id n.mint
        { walletAddress := n.owner, marketId := market.id, tokenMint := n.mint,
          amount := (n.rawAmount : ℚ) / 10 ^ (jsNumOr (dec n.mint) 6),
          averageEntryPrice := 0, realizedPnl := defaultRealizedPnl }
        (fun p => { p with amount := (n.rawAmount : ℚ) / 10 ^ (jsNumOr (dec n.mint) 6) }) := by
    unfold handleTokenAccountChange
    rw [if_neg hlen, hm]
  constructor
  · intro hnone
    rw [hpos, upsertPositionIn_find_new _ _ _ _ _ _ hnone (by simp [posMatches])]
    rfl
  · intro p hp
    rw [hpos, upsertPositionIn_find_existing _ _ _ _ _ _
      (fun q hq => by
        have hk := posMatches_keys hq
        simp [posMatches, hk.1, hk.2.1, hk.2.2])
      p hp]

/-- A listener state that already holds a position at `("w1", "m1", "tmY")`
with entry price 3 and realized P&L 7, for the C10 witness. -/
def listenerWithPos : ListenerState :=
  { markets := [{ id := "m1", yesTokenMint := "tmY", noTokenMint := "tmN",
                  status := "active" }],
    users := [],
    positions := [{ walletAddress := "w1", marketId := "m1", tokenMint := "tmY",
                    amount := 1, averageEntryPrice := 3, realizedPnl := 7 }],
    liveQueue := [] }

/-- Witness for C10's amended theorem: a fresh position is created with
`averageEntryPrice = 0`, and an update to an existing position changes only
`amount`, leaving entry price 3 and realized P&L 7 intact. -/
theorem C10_witness :
    findPositionIn (handleTokenAccountChange listenerInit notifFive
        (fun _ => none)).positions "w1" "m1" "tmY" =
      some { walletAddress := "w1", marketId := "m1", tokenMint := "tmY",
             amount := ((5:ℕ) : ℚ) / 10 ^ (jsNumOr (none : Option ℕ) 6),
             averageEntryPrice := 0, realizedPnl := 0 } ∧
    findPositionIn (handleTokenAccountChange listenerWithPos notifFive
        (fun _ => some 2)).positions "w1" "m1" "tmY" =
      some { walletAddress := "w1", marketId := "m1", tokenMint := "tmY",
             amount := ((5:ℕ) : ℚ) / 10 ^ (jsNumOr (some 2) 6),
             averageEntryPrice := 3, realizedPnl := 7 } := by
  constructor
  · exact (C10_listener_position_frame.1 listenerInit notifFive (fun _ => none)
      { id := "m1", yesTokenMint := "tmY", noTokenMint := "tmN", status := "active" }
      (by decide) (by decide)).1 (by decide)
  · exact (C10_listener_position_frame.1 listenerWithPos notifFive (fun _ => some 2)
      { id := "m1", yesTokenMint := "tmY", noTokenMint := "tmN", status := "active" }
      (by decide) (by decide)).2
      { walletAddress := "w1", marketId := "m1", tokenMint := "tmY",
        amount := 1, averageEntryPrice := 3, realizedPnl := 7 } (by decide)

end Simpson
